import Mathlib

/-!
Shallow embedding of the multi-scale template-matching and NMS core of the
`Reto_Cadena` repository (`OpenCVMatcher.py`, `RekognitionService.py`).

Images never enter the model directly: the external `cv2.matchTemplate`
similarity surface is abstracted as a score oracle `res : scale → y → x → score`
(the repository treats OpenCV as an external collaborator).  Everything the
repository's own code computes — scaled dimensions, size guards, candidate
collection with the per-template cap, greedy NMS on score or area — is
translated statement by statement from the Python source.  Floats become exact
rationals; Python `int()` becomes truncation toward zero.
-/

namespace CVModel

/-- A pixel box `(x1, y1, x2, y2)`, the payload of `Detection.box` in
`OpenCVMatcher.py` and of the plain tuples in `RekognitionService.py`. -/
structure Box where
  x1 : Int
  y1 : Int
  x2 : Int
  y2 : Int
deriving DecidableEq, Repr

/-- Python `int()` applied to an exact rational: truncation toward zero. -/
def pyInt (q : Rat) : Int := Int.tdiv q.num (q.den : Int)

/-- The locations `(x, y)` of a similarity surface of height `hS` and width
`wS` that satisfy `keep`, in the row-major order produced by
`np.where(res >= threshold)` followed by `zip(xs, ys)`. -/
def surfacePoints (hS wS : Nat) (keep : Nat → Nat → Bool) : List (Nat × Nat) :=
  (List.range hS).flatMap fun y =>
    ((List.range wS).filter fun x => keep y x).map fun x => (x, y)

/-- Model of the external `cv2.matchTemplate` contract: OpenCV raises
`cv2.error` when the template exceeds the image in either dimension, and
otherwise succeeds. -/
def matchTemplateCall (H W th tw : Nat) : Except String Unit :=
  if th ≤ H ∧ tw ≤ W then Except.ok () else Except.error "cv2.error"

/-- Model of `cv2.minMaxLoc`'s maximum location `(y, x)`: the first location of
the maximal score in row-major scan order (ties keep the earliest). -/
def argmaxLoc (hS wS : Nat) (f : Nat → Nat → Rat) : Nat × Nat :=
  ((List.range hS).flatMap fun y => (List.range wS).map fun x => (y, x)).foldl
    (fun best p => if f best.1 best.2 < f p.1 p.2 then p else best) (0, 0)

end CVModel

namespace OpenCVMatcher

open CVModel

/-- The `Detection` dataclass of `OpenCVMatcher.py`. -/
structure Detection where
  name : String
  score : Rat
  box : Box
  scale : Rat
deriving DecidableEq, Repr

/-- `area` helper inside `OpenCVMatcher._nms`. -/
def area (b : Box) : Int := max 0 (b.x2 - b.x1) * max 0 (b.y2 - b.y1)

/-- `iou` helper inside `OpenCVMatcher._nms`; the float literal `1e-6` is the
exact rational `1/1000000`. -/
def iou (a b : Box) : Rat :=
  let ix1 := max a.x1 b.x1
  let iy1 := max a.y1 b.y1
  let ix2 := min a.x2 b.x2
  let iy2 := min a.y2 b.y2
  let inter : Int := max 0 (ix2 - ix1) * max 0 (iy2 - iy1)
  (inter : Rat) / ((area a : Rat) + (area b : Rat) - (inter : Rat) + 1 / 1000000)

/-- `sorted(boxes, key=lambda d: d.score, reverse=True)`: a stable sort placing
higher scores first. -/
def sortScoreDesc (l : List Detection) : List Detection :=
  l.mergeSort fun a b => decide (b.score ≤ a.score)

/-- The `while boxes_sorted:` loop of `OpenCVMatcher._nms`: pop the head, keep
it, drop every remaining detection whose IoU with it reaches `thr`. -/
def nmsLoop (thr : Rat) : List Detection → List Detection
  | [] => []
  | cur :: rest =>
      cur :: nmsLoop thr (rest.filter fun d => decide (iou cur.box d.box < thr))
termination_by l => l.length
decreasing_by
  simp only [List.length_cons]
  exact Nat.lt_succ_of_le (List.length_filter_le _ _)

/-- `OpenCVMatcher._nms`: early return `[]` on an empty list, otherwise the
greedy loop over the score-descending sort. -/
def nms (boxes : List Detection) (iou_thr : Rat) : List Detection :=
  if boxes.isEmpty then [] else nmsLoop iou_thr (sortScoreDesc boxes)

/-- The inner `for (x, y) in zip(xs, ys):` loop of `match_single_template`:
append a detection for each surface point, and `break` as soon as
`len(dets) >= max_per_template` — the check runs after each append. -/
def collect (mk : Nat × Nat → Detection) (maxN : Nat) :
    List (Nat × Nat) → List Detection → List Detection
  | [], dets => dets
  | p :: ps, dets =>
      let dets2 := dets ++ [mk p]
      if maxN ≤ dets2.length then dets2 else collect mk maxN ps dets2

/-- One iteration of the `for s in scales:` loop of `match_single_template`:
scaled dimensions `max(10, int(dim * s))`, the size guard (and its post-resize
duplicate), then thresholded candidate collection. -/
def matchStep (H W tgH tgW : Nat) (tplName : String) (threshold : Rat) (maxN : Nat)
    (res : Rat → Nat → Nat → Rat) (dets : List Detection) (s : Rat) : List Detection :=
  let th : Int := max 10 (pyInt ((tgH : Rat) * s))
  let tw : Int := max 10 (pyInt ((tgW : Rat) * s))
  if th > (H : Int) ∨ tw > (W : Int) then dets
  else if th > (H : Int) ∨ tw > (W : Int) then dets
  else
    let thN := th.toNat
    let twN := tw.toNat
    let pts := surfacePoints (H - thN + 1) (W - twN + 1) fun y x => decide (threshold ≤ res s y x)
    collect (fun p => { name := tplName, score := res s p.2 p.1,
                        box := ⟨(p.1 : Int), (p.2 : Int),
                                (p.1 : Int) + (twN : Int), (p.2 : Int) + (thN : Int)⟩,
                        scale := s }) maxN pts dets

/-- `OpenCVMatcher.match_single_template` for a target of preprocessed size
`H × W` and a template of preprocessed size `tgH × tgW`, with `res` standing
for the external correlation surfaces. -/
def match_single_template (H W tgH tgW : Nat) (tplName : String) (threshold : Rat)
    (scales : List Rat) (maxN : Nat) (res : Rat → Nat → Nat → Rat) : List Detection :=
  scales.foldl (matchStep H W tgH tgW tplName threshold maxN res) []

/-- `matchStep` with the external `cv2.matchTemplate` call kept fallible, to
express that the guard makes the raising branch unreachable. -/
def matchStepE (H W tgH tgW : Nat) (tplName : String) (threshold : Rat) (maxN : Nat)
    (res : Rat → Nat → Nat → Rat) (dets : List Detection) (s : Rat) :
    Except String (List Detection) :=
  let th : Int := max 10 (pyInt ((tgH : Rat) * s))
  let tw : Int := max 10 (pyInt ((tgW : Rat) * s))
  if th > (H : Int) ∨ tw > (W : Int) then Except.ok dets
  else if th > (H : Int) ∨ tw > (W : Int) then Except.ok dets
  else
    let thN := th.toNat
    let twN := tw.toNat
    match matchTemplateCall H W thN twN with
    | Except.error e => Except.error e
    | Except.ok _ =>
      let pts := surfacePoints (H - thN + 1) (W - twN + 1) fun y x => decide (threshold ≤ res s y x)
      Except.ok (collect (fun p =>
        { name := tplName, score := res s p.2 p.1,
          box := ⟨(p.1 : Int), (p.2 : Int),
                  (p.1 : Int) + (twN : Int), (p.2 : Int) + (thN : Int)⟩,
          scale := s }) maxN pts dets)

/-- `match_single_template` with the fallible external call threaded through. -/
def match_single_templateE (H W tgH tgW : Nat) (tplName : String) (threshold : Rat)
    (scales : List Rat) (maxN : Nat) (res : Rat → Nat → Nat → Rat) :
    Except String (List Detection) :=
  scales.foldlM (matchStepE H W tgH tgW tplName threshold maxN res) []

/-- The concatenation loop of `OpenCVMatcher.match_multiple`: per-template
candidates in dictionary order.  A template is its name with its preprocessed
height and width; `res name` is that template's correlation surface oracle. -/
def allCandidates (H W : Nat) (templates : List (String × Nat × Nat)) (threshold : Rat)
    (scales : List Rat) (maxN : Nat) (res : String → Rat → Nat → Nat → Rat) : List Detection :=
  templates.flatMap fun t =>
    match_single_template H W t.2.1 t.2.2 t.1 threshold scales maxN (res t.1)

/-- `OpenCVMatcher.match_multiple`: concatenate per-template candidates, then
global NMS. -/
def match_multiple (H W : Nat) (templates : List (String × Nat × Nat)) (threshold : Rat)
    (scales : List Rat) (nms_iou : Rat) (maxN : Nat)
    (res : String → Rat → Nat → Nat → Rat) : List Detection :=
  nms (allCandidates H W templates threshold scales maxN res) nms_iou

/-- One iteration of the scale loop of `find_best_of_templates`: guard
`th < 10 or tw < 10 or th > H or tw > W`, then keep the candidate at the best
surface location when it strictly improves the running best. -/
def bestStep (H W : Nat) (tplName : String) (tgH tgW : Nat)
    (res : Rat → Nat → Nat → Rat) (best : Option Detection) (s : Rat) : Option Detection :=
  let th : Int := max 10 (pyInt ((tgH : Rat) * s))
  let tw : Int := max 10 (pyInt ((tgW : Rat) * s))
  if th < 10 ∨ tw < 10 ∨ th > (H : Int) ∨ tw > (W : Int) then best
  else
    let thN := th.toNat
    let twN := tw.toNat
    let loc := argmaxLoc (H - thN + 1) (W - twN + 1) (res s)
    let cand : Detection :=
      { name := tplName, score := res s loc.1 loc.2,
        box := ⟨(loc.2 : Int), (loc.1 : Int),
                (loc.2 : Int) + (twN : Int), (loc.1 : Int) + (thN : Int)⟩,
        scale := s }
    match best with
    | none => some cand
    | some b => if b.score < cand.score then some cand else some b

/-- `OpenCVMatcher.find_best_of_templates`: the diagnostic best-of sweep over
all templates and scales, ignoring the threshold. -/
def find_best_of_templates (H W : Nat) (templates : List (String × Nat × Nat))
    (scales : List Rat) (res : String → Rat → Nat → Nat → Rat) : Option Detection :=
  templates.foldl (fun best t => scales.foldl (bestStep H W t.1 t.2.1 t.2.2 (res t.1)) best) none

end OpenCVMatcher

namespace RekognitionService

open CVModel

/-- `area` helper inside `RekognitionService._nms` (identical formula to the
one in `OpenCVMatcher`, duplicated in the source). -/
def areaR (b : Box) : Int := max 0 (b.x2 - b.x1) * max 0 (b.y2 - b.y1)

/-- `iou` helper inside `RekognitionService._nms`. -/
def iouR (a b : Box) : Rat :=
  let ix1 := max a.x1 b.x1
  let iy1 := max a.y1 b.y1
  let ix2 := min a.x2 b.x2
  let iy2 := min a.y2 b.y2
  let inter : Int := max 0 (ix2 - ix1) * max 0 (iy2 - iy1)
  (inter : Rat) / ((areaR a : Rat) + (areaR b : Rat) - (inter : Rat) + 1 / 1000000)

/-- The greedy loop of `RekognitionService._nms` on plain boxes. -/
def nmsLoopR (thr : Rat) : List Box → List Box
  | [] => []
  | cur :: rest =>
      cur :: nmsLoopR thr (rest.filter fun b => decide (iouR cur b < thr))
termination_by l => l.length
decreasing_by
  simp only [List.length_cons]
  exact Nat.lt_succ_of_le (List.length_filter_le _ _)

/-- `RekognitionService._nms`: greedy NMS ranking by box area descending
(`sorted(boxes, key=area, reverse=True)`). -/
def nmsR (boxes : List Box) (iou_threshold : Rat) : List Box :=
  if boxes.isEmpty then []
  else nmsLoopR iou_threshold (boxes.mergeSort fun a b => decide (areaR b ≤ areaR a))

/-- One iteration of the scale loop of `template_match_logo`: the only guard in
the source is the vacuous `th < 10 or tw < 10`; the resized template is then
handed to `cv2.matchTemplate` unconditionally, which raises when it exceeds
the target. -/
def logoStep (H W tplH tplW : Nat) (threshold : Rat) (res : Rat → Nat → Nat → Rat)
    (boxes : List Box) (s : Rat) : Except String (List Box) :=
  let th : Int := max 10 (pyInt ((tplH : Rat) * s))
  let tw : Int := max 10 (pyInt ((tplW : Rat) * s))
  if th < 10 ∨ tw < 10 then Except.ok boxes
  else
    let thN := th.toNat
    let twN := tw.toNat
    match matchTemplateCall H W thN twN with
    | Except.error e => Except.error e
    | Except.ok _ =>
      let pts := surfacePoints (H - thN + 1) (W - twN + 1) fun y x => decide (threshold ≤ res s y x)
      Except.ok (boxes ++ pts.map fun p =>
        ⟨(p.1 : Int), (p.2 : Int), (p.1 : Int) + (twN : Int), (p.2 : Int) + (thN : Int)⟩)

/-- `RekognitionService.template_match_logo` for a target of size `H × W` and a
logo of preprocessed size `tplH × tplW`: sweep the scales (or `[1.0]` when
`multi_scale` is off), collect every location at or above the threshold, then
area-ranked NMS at the fixed IoU threshold `0.4`. -/
def template_match_logo (H W tplH tplW : Nat) (threshold : Rat) (multi_scale : Bool)
    (scales : List Rat) (res : Rat → Nat → Nat → Rat) : Except String (List Box) :=
  match (if multi_scale then scales else [1]).foldlM (logoStep H W tplH tplW threshold res) [] with
  | Except.error e => Except.error e
  | Except.ok boxes => Except.ok (nmsR boxes (4 / 10))

end RekognitionService

/-! ### Facts about the greedy NMS loops -/

open CVModel OpenCVMatcher RekognitionService

theorem nmsLoop_sublist (thr : Rat) (l : List Detection) : (nmsLoop thr l).Sublist l := by
  induction l using nmsLoop.induct thr with
  | case1 => simp [nmsLoop]
  | case2 cur rest ih =>
      rw [nmsLoop]
      exact List.Sublist.cons₂ cur (ih.trans (List.filter_sublist rest))

theorem nmsLoop_pairwise_iou (thr : Rat) (l : List Detection) :
    (nmsLoop thr l).Pairwise fun a b => iou a.box b.box < thr := by
  induction l using nmsLoop.induct thr with
  | case1 => simp [nmsLoop]
  | case2 cur rest ih =>
      rw [nmsLoop]
      refine List.Pairwise.cons (fun b hb => ?_) ih
      exact of_decide_eq_true (List.mem_filter.mp ((nmsLoop_sublist thr _).subset hb)).2

theorem nmsLoop_sorted (thr : Rat) (l : List Detection) :
    l.Pairwise (fun a b => b.score ≤ a.score) →
    (nmsLoop thr l).Pairwise fun a b => b.score ≤ a.score := by
  induction l using nmsLoop.induct thr with
  | case1 => intro h; simp [nmsLoop]
  | case2 cur rest ih =>
      intro h
      rcases List.pairwise_cons.mp h with ⟨h1, h2⟩
      rw [nmsLoop]
      refine List.Pairwise.cons (fun b hb => ?_) (ih (h2.sublist (List.filter_sublist rest)))
      exact h1 b ((List.filter_sublist rest).subset ((nmsLoop_sublist thr _).subset hb))

theorem nmsLoop_eq_self (thr : Rat) (l : List Detection) :
    l.Pairwise (fun a b => iou a.box b.box < thr) → nmsLoop thr l = l := by
  induction l using nmsLoop.induct thr with
  | case1 => intro _; simp [nmsLoop]
  | case2 cur rest ih =>
      intro h
      rcases List.pairwise_cons.mp h with ⟨h1, h2⟩
      have hf : rest.filter (fun d => decide (iou cur.box d.box < thr)) = rest :=
        List.filter_eq_self.mpr fun b hb => decide_eq_true (h1 b hb)
      rw [hf] at ih
      rw [nmsLoop, hf, ih h2]

theorem sortScoreDesc_perm (l : List Detection) : (sortScoreDesc l).Perm l :=
  List.mergeSort_perm l _

theorem sortScoreDesc_pairwise (l : List Detection) :
    (sortScoreDesc l).Pairwise fun a b => b.score ≤ a.score := by
  have h := @List.sorted_mergeSort Detection (fun a b : Detection => decide (b.score ≤ a.score))
    (fun a b c hab hbc =>
      decide_eq_true (le_trans (of_decide_eq_true hbc) (of_decide_eq_true hab)))
    (fun a b => by
      simp only [Bool.or_eq_true, decide_eq_true_eq]
      exact le_total b.score a.score) l
  exact h.imp fun hab => of_decide_eq_true hab

theorem sortScoreDesc_of_sorted (l : List Detection)
    (h : l.Pairwise fun a b => b.score ≤ a.score) : sortScoreDesc l = l :=
  List.mergeSort_of_sorted (h.imp fun hab => decide_eq_true hab)

theorem nms_subset (D : List Detection) (t : Rat) : nms D t ⊆ D := by
  unfold nms
  split
  · simp
  · intro x hx
    exact (sortScoreDesc_perm D).subset ((nmsLoop_sublist t _).subset hx)

theorem nms_length_le (D : List Detection) (t : Rat) : (nms D t).length ≤ D.length := by
  unfold nms
  split
  · simp
  · calc (nmsLoop t (sortScoreDesc D)).length
        ≤ (sortScoreDesc D).length := (nmsLoop_sublist t _).length_le
      _ = D.length := (sortScoreDesc_perm D).length_eq

theorem nms_sorted (D : List Detection) (t : Rat) :
    (nms D t).Pairwise fun a b => b.score ≤ a.score := by
  unfold nms
  split
  · simp
  · exact nmsLoop_sorted t _ (sortScoreDesc_pairwise D)

theorem nms_pairwise_iou (D : List Detection) (t : Rat) :
    (nms D t).Pairwise fun a b => iou a.box b.box < t := by
  unfold nms
  split
  · simp
  · exact nmsLoop_pairwise_iou t _

theorem nms_idem (D : List Detection) (t : Rat) : nms (nms D t) t = nms D t := by
  have hsort : sortScoreDesc (nms D t) = nms D t :=
    sortScoreDesc_of_sorted _ (nms_sorted D t)
  have hstep : nms (nms D t) t =
      if (nms D t).isEmpty then [] else nmsLoop t (sortScoreDesc (nms D t)) := rfl
  by_cases hP : (nms D t).isEmpty
  · rw [List.isEmpty_iff] at hP
    rw [hP]
    rfl
  · rw [hstep, if_neg hP, hsort, nmsLoop_eq_self t _ (nms_pairwise_iou D t)]

theorem iou_comm (a b : Box) : iou a b = iou b a := by
  simp only [iou]
  rw [max_comm a.x1 b.x1, max_comm a.y1 b.y1, min_comm a.x2 b.x2, min_comm a.y2 b.y2,
      add_comm ((area a : Rat)) ((area b : Rat))]

theorem nmsLoopR_sublist (thr : Rat) (l : List Box) : (nmsLoopR thr l).Sublist l := by
  induction l using nmsLoopR.induct thr with
  | case1 => simp [nmsLoopR]
  | case2 cur rest ih =>
      rw [nmsLoopR]
      exact List.Sublist.cons₂ cur (ih.trans (List.filter_sublist rest))

theorem nmsLoopR_pairwise_iou (thr : Rat) (l : List Box) :
    (nmsLoopR thr l).Pairwise fun a b => iouR a b < thr := by
  induction l using nmsLoopR.induct thr with
  | case1 => simp [nmsLoopR]
  | case2 cur rest ih =>
      rw [nmsLoopR]
      refine List.Pairwise.cons (fun b hb => ?_) ih
      exact of_decide_eq_true (List.mem_filter.mp ((nmsLoopR_sublist thr _).subset hb)).2

theorem nmsR_subset (B : List Box) (t : Rat) : nmsR B t ⊆ B := by
  unfold nmsR
  split
  · simp
  · intro x hx
    exact (List.mergeSort_perm B _).subset ((nmsLoopR_sublist t _).subset hx)

theorem nmsR_length_le (B : List Box) (t : Rat) : (nmsR B t).length ≤ B.length := by
  unfold nmsR
  split
  · simp
  · calc (nmsLoopR t _).length
        ≤ (B.mergeSort fun a b => decide (areaR b ≤ areaR a)).length :=
          (nmsLoopR_sublist t _).length_le
      _ = B.length := (List.mergeSort_perm B _).length_eq

theorem nmsR_pairwise_iou (B : List Box) (t : Rat) :
    (nmsR B t).Pairwise fun a b => iouR a b < t := by
  unfold nmsR
  split
  · simp
  · exact nmsLoopR_pairwise_iou t _

theorem iouR_comm (a b : Box) : iouR a b = iouR b a := by
  simp only [iouR]
  rw [max_comm a.x1 b.x1, max_comm a.y1 b.y1, min_comm a.x2 b.x2, min_comm a.y2 b.y2,
      add_comm ((areaR a : Rat)) ((areaR b : Rat))]

/-- C6: `resolve_overlaps` (the score-ranked NMS `OpenCVMatcher._nms`) is
idempotent — re-running it on its own output changes nothing, for every
detection list `D` and IoU threshold `t`. -/
theorem C6_resolve_overlaps_idempotent (D : List Detection) (t : Rat) :
    nms (nms D t) t = nms D t :=
  nms_idem D t

/-- C7: for both NMS variants the output is a subset of the input with no
larger length, and the score-ranked variant returns its picks ordered by score
descending. -/
theorem C7_nms_subset_length_sorted (D : List Detection) (B : List Box) (t : Rat) :
    nms D t ⊆ D ∧ (nms D t).length ≤ D.length ∧
    ((nms D t).Pairwise fun a b => b.score ≤ a.score) ∧
    nmsR B t ⊆ B ∧ (nmsR B t).length ≤ B.length :=
  ⟨nms_subset D t, nms_length_le D t, nms_sorted D t, nmsR_subset B t, nmsR_length_le B t⟩

/-- C7 witness: the subset, length and ordering facts instantiated on a
concrete overlapping pair (Scenario C of the spec). -/
theorem C7_nms_subset_length_sorted_witness :
    ⟨"a", 9/10, ⟨0, 0, 50, 50⟩, 1⟩ ∈
      ([⟨"a", 9/10, ⟨0, 0, 50, 50⟩, 1⟩, ⟨"b", 8/10, ⟨5, 5, 55, 55⟩, 1⟩] : List Detection) ∧
    (nms [⟨"a", 9/10, ⟨0, 0, 50, 50⟩, 1⟩, ⟨"b", 8/10, ⟨5, 5, 55, 55⟩, 1⟩] (4/10)).length ≤ 2 := by
  have hmem : (⟨"a", 9/10, ⟨0, 0, 50, 50⟩, 1⟩ : Detection) ∈
      nms [⟨"a", 9/10, ⟨0, 0, 50, 50⟩, 1⟩, ⟨"b", 8/10, ⟨5, 5, 55, 55⟩, 1⟩] (4/10) := by
    norm_num [nms, sortScoreDesc, List.mergeSort, List.splitInTwo, List.merge, nmsLoop, iou, area]
  exact ⟨(C7_nms_subset_length_sorted
      [⟨"a", 9/10, ⟨0, 0, 50, 50⟩, 1⟩, ⟨"b", 8/10, ⟨5, 5, 55, 55⟩, 1⟩] [] (4/10)).1 hmem,
    (C7_nms_subset_length_sorted
      [⟨"a", 9/10, ⟨0, 0, 50, 50⟩, 1⟩, ⟨"b", 8/10, ⟨5, 5, 55, 55⟩, 1⟩] [] (4/10)).2.1⟩

/-- C10: any two boxes picked by either greedy NMS variant have IoU strictly
below the threshold, in both orientations. -/
theorem C10_nms_pairwise_iou_lt (D : List Detection) (B : List Box) (t : Rat) :
    ((nms D t).Pairwise fun a b => iou a.box b.box < t ∧ iou b.box a.box < t) ∧
    ((nmsR B t).Pairwise fun a b => iouR a b < t ∧ iouR b a < t) :=
  ⟨(nms_pairwise_iou D t).imp fun hab => ⟨hab, iou_comm _ _ ▸ hab⟩,
   (nmsR_pairwise_iou B t).imp fun hab => ⟨hab, iouR_comm _ _ ▸ hab⟩⟩

/-! ### The scale guard and the fallible external call -/

theorem foldl_invariant {α β : Type} (P : β → Prop) (f : β → α → β) (l : List α) (init : β)
    (h0 : P init) (hstep : ∀ b a, a ∈ l → P b → P (f b a)) : P (l.foldl f init) := by
  induction l generalizing init with
  | nil => exact h0
  | cons a as ih =>
      exact ih (f init a) (hstep init a (List.mem_cons_self a as) h0)
        fun b x hx hb => hstep b x (List.mem_cons_of_mem a hx) hb

theorem matchStepE_ok (H W tgH tgW : Nat) (tplName : String) (threshold : Rat) (maxN : Nat)
    (res : Rat → Nat → Nat → Rat) (dets : List Detection) (s : Rat) :
    matchStepE H W tgH tgW tplName threshold maxN res dets s =
      Except.ok (matchStep H W tgH tgW tplName threshold maxN res dets s) := by
  simp only [matchStepE, matchStep]
  split_ifs with hg
  · rfl
  · have h1 : (max 10 (pyInt ((tgH : Rat) * s))).toNat ≤ H := by
      rw [Int.toNat_le]
      omega
    have h2 : (max 10 (pyInt ((tgW : Rat) * s))).toNat ≤ W := by
      rw [Int.toNat_le]
      omega
    simp [matchTemplateCall, h1, h2]

theorem match_single_templateE_ok (H W tgH tgW : Nat) (tplName : String) (threshold : Rat)
    (scales : List Rat) (maxN : Nat) (res : Rat → Nat → Nat → Rat) :
    match_single_templateE H W tgH tgW tplName threshold scales maxN res =
      Except.ok (match_single_template H W tgH tgW tplName threshold scales maxN res) := by
  unfold match_single_templateE match_single_template
  suffices h : ∀ init : List Detection,
      scales.foldlM (matchStepE H W tgH tgW tplName threshold maxN res) init =
        Except.ok (scales.foldl (matchStep H W tgH tgW tplName threshold maxN res) init) from
    h []
  induction scales with
  | nil => intro init; rfl
  | cons s ss ih =>
      intro init
      rw [List.foldlM_cons, List.foldl_cons, matchStepE_ok]
      exact ih _

theorem matchStep_skip (H W tgH tgW : Nat) (tplName : String) (threshold : Rat) (maxN : Nat)
    (res : Rat → Nat → Nat → Rat) (dets : List Detection) (s : Rat)
    (h : (H : Int) < max 10 (pyInt ((tgH : Rat) * s)) ∨
         (W : Int) < max 10 (pyInt ((tgW : Rat) * s))) :
    matchStep H W tgH tgW tplName threshold maxN res dets s = dets := by
  simp only [matchStep]
  rw [if_pos h]

theorem bestStep_skip (H W : Nat) (tplName : String) (tgH tgW : Nat)
    (res : Rat → Nat → Nat → Rat) (best : Option Detection) (s : Rat)
    (h : (H : Int) < max 10 (pyInt ((tgH : Rat) * s)) ∨
         (W : Int) < max 10 (pyInt ((tgW : Rat) * s))) :
    bestStep H W tplName tgH tgW res best s = best := by
  simp only [bestStep]
  rw [if_pos (Or.inr (Or.inr h))]

/-- C1: the guarded matcher `match_single_template` skips oversized scales and
never reaches the raising branch of `cv2.matchTemplate` (its fallible model
always returns `ok` of the total model), while the unguarded duplicate
`template_match_logo` raises `cv2.error` already on a 5×5 target with a 20×20
logo at scale 1.0. -/
theorem C1_scale_guard_and_unguarded_raise :
    (∀ (H W tgH tgW : Nat) (tplName : String) (threshold : Rat) (scales : List Rat)
        (maxN : Nat) (res : Rat → Nat → Nat → Rat),
        match_single_templateE H W tgH tgW tplName threshold scales maxN res =
          Except.ok (match_single_template H W tgH tgW tplName threshold scales maxN res)) ∧
    template_match_logo 5 5 20 20 (3/4) true [1] (fun _ _ _ => 1) =
      Except.error "cv2.error" :=
  ⟨match_single_templateE_ok, by
    norm_num [template_match_logo, logoStep, pyInt, matchTemplateCall]⟩

theorem match_single_template_oversized (H W tgH tgW : Nat) (tplName : String)
    (threshold : Rat) (scales : List Rat) (maxN : Nat) (res : Rat → Nat → Nat → Rat)
    (hover : ∀ s ∈ scales, (H : Int) < max 10 (pyInt ((tgH : Rat) * s)) ∨
                           (W : Int) < max 10 (pyInt ((tgW : Rat) * s))) :
    match_single_template H W tgH tgW tplName threshold scales maxN res = [] := by
  unfold match_single_template
  have h := foldl_invariant (fun dets => dets = [])
    (matchStep H W tgH tgW tplName threshold maxN res) scales [] rfl
    fun dets s hs hd => by rw [matchStep_skip _ _ _ _ _ _ _ _ _ _ (hover s hs)]; exact hd
  exact h

/-- C9: a template whose scaled dimensions exceed the target in some dimension
at every configured scale yields the empty list from the thresholded search and
`none` from the diagnostic best-of search over the same inputs. -/
theorem C9_no_valid_scale (H W tgH tgW : Nat) (tplName : String) (threshold : Rat)
    (scales : List Rat) (maxN : Nat) (res : Rat → Nat → Nat → Rat)
    (resM : String → Rat → Nat → Nat → Rat)
    (hover : ∀ s ∈ scales, (H : Int) < max 10 (pyInt ((tgH : Rat) * s)) ∨
                           (W : Int) < max 10 (pyInt ((tgW : Rat) * s))) :
    match_single_template H W tgH tgW tplName threshold scales maxN res = [] ∧
    find_best_of_templates H W [(tplName, tgH, tgW)] scales resM = none := by
  refine ⟨match_single_template_oversized H W tgH tgW tplName threshold scales maxN res hover, ?_⟩
  unfold find_best_of_templates
  simp only [List.foldl_cons, List.foldl_nil]
  exact foldl_invariant (fun best => best = none)
    (bestStep H W tplName tgH tgW (resM tplName)) scales none rfl
    fun best s hs hb => by rw [bestStep_skip _ _ _ _ _ _ _ _ (hover s hs)]; exact hb

/-- C9 witness: a 10×10 template against a 5×5 target at the single scale 1.0
is oversized, so the search is empty and the best-of is `none`. -/
theorem C9_no_valid_scale_witness :
    (∀ s ∈ ([1] : List Rat), (5 : Int) < max 10 (pyInt ((10 : Rat) * s)) ∨
                             (5 : Int) < max 10 (pyInt ((10 : Rat) * s))) ∧
    match_single_template 5 5 10 10 "logo" (3/4) [1] 50 (fun _ _ _ => 1) = [] ∧
    find_best_of_templates 5 5 [("logo", 10, 10)] [1] (fun _ _ _ _ => 1) = none := by
  have hover : ∀ s ∈ ([1] : List Rat), (5 : Int) < max 10 (pyInt ((10 : Rat) * s)) ∨
      (5 : Int) < max 10 (pyInt ((10 : Rat) * s)) := by
    norm_num [pyInt]
  exact ⟨hover, C9_no_valid_scale 5 5 10 10 "logo" (3/4) [1] 50 (fun _ _ _ => 1)
    (fun _ _ _ _ => 1) hover⟩

/-! ### Detections stay inside the target bounds -/

/-- A box lying inside a target image of height `H` and width `W`. -/
def insideTarget (H W : Nat) (b : Box) : Prop :=
  0 ≤ b.x1 ∧ 0 ≤ b.y1 ∧ b.x2 ≤ (W : Int) ∧ b.y2 ≤ (H : Int)

theorem surfacePoints_mem (hS wS : Nat) (keep : Nat → Nat → Bool) (p : Nat × Nat)
    (hp : p ∈ surfacePoints hS wS keep) : p.1 < wS ∧ p.2 < hS := by
  simp only [surfacePoints, List.mem_flatMap, List.mem_map, List.mem_filter,
    List.mem_range] at hp
  obtain ⟨y, hy, x, ⟨hx, _⟩, rfl⟩ := hp
  exact ⟨hx, hy⟩

theorem collect_forall (P : Detection → Prop) (mk : Nat × Nat → Detection) (maxN : Nat)
    (pts : List (Nat × Nat)) (dets : List Detection)
    (hdets : ∀ d ∈ dets, P d) (hmk : ∀ p ∈ pts, P (mk p)) :
    ∀ d ∈ collect mk maxN pts dets, P d := by
  induction pts generalizing dets with
  | nil => simpa [collect] using hdets
  | cons p ps ih =>
      have happ : ∀ d ∈ dets ++ [mk p], P d := by
        intro d hd
        rcases List.mem_append.mp hd with h | h
        · exact hdets d h
        · rw [List.mem_singleton.mp h]
          exact hmk p (List.mem_cons_self p ps)
      intro d hd
      simp only [collect] at hd
      split at hd
      · exact happ d hd
      · exact ih (dets ++ [mk p]) happ (fun q hq => hmk q (List.mem_cons_of_mem p hq)) d hd

theorem matchStep_bounds (H W tgH tgW : Nat) (tplName : String) (threshold : Rat)
    (maxN : Nat) (res : Rat → Nat → Nat → Rat) (dets : List Detection) (s : Rat)
    (hdets : ∀ d ∈ dets, insideTarget H W d.box) :
    ∀ d ∈ matchStep H W tgH tgW tplName threshold maxN res dets s,
      insideTarget H W d.box := by
  intro d hd
  simp only [matchStep] at hd
  split_ifs at hd with h1
  · exact hdets d hd
  · have hthH : (max 10 (pyInt ((tgH : Rat) * s))).toNat ≤ H := by
      rw [Int.toNat_le]; omega
    have htwW : (max 10 (pyInt ((tgW : Rat) * s))).toNat ≤ W := by
      rw [Int.toNat_le]; omega
    refine collect_forall _ _ _ _ _ hdets ?_ d hd
    intro p hp
    obtain ⟨hx, hy⟩ := surfacePoints_mem _ _ _ p hp
    refine ⟨?_, ?_, ?_, ?_⟩ <;> · dsimp only; omega

theorem match_single_template_bounds (H W tgH tgW : Nat) (tplName : String)
    (threshold : Rat) (scales : List Rat) (maxN : Nat) (res : Rat → Nat → Nat → Rat) :
    ∀ d ∈ match_single_template H W tgH tgW tplName threshold scales maxN res,
      insideTarget H W d.box := by
  unfold match_single_template
  exact foldl_invariant (fun dets => ∀ d ∈ dets, insideTarget H W d.box)
    (matchStep H W tgH tgW tplName threshold maxN res) scales [] (by simp)
    fun dets s _ hd => matchStep_bounds H W tgH tgW tplName threshold maxN res dets s hd

theorem match_multiple_bounds (H W : Nat) (templates : List (String × Nat × Nat))
    (threshold : Rat) (scales : List Rat) (nmsIou : Rat) (maxN : Nat)
    (resM : String → Rat → Nat → Nat → Rat) :
    ∀ d ∈ match_multiple H W templates threshold scales nmsIou maxN resM,
      insideTarget H W d.box := by
  intro d hd
  have hall : d ∈ allCandidates H W templates threshold scales maxN resM :=
    nms_subset _ nmsIou hd
  simp only [allCandidates, List.mem_flatMap] at hall
  obtain ⟨t, _, hdt⟩ := hall
  exact match_single_template_bounds H W t.2.1 t.2.2 t.1 threshold scales maxN (resM t.1) d hdt

theorem argmaxLoc_bounds (hS wS : Nat) (f : Nat → Nat → Rat) (h1 : 1 ≤ hS) (h2 : 1 ≤ wS) :
    (argmaxLoc hS wS f).1 < hS ∧ (argmaxLoc hS wS f).2 < wS := by
  unfold argmaxLoc
  refine foldl_invariant (fun p => p.1 < hS ∧ p.2 < wS) _ _ (0, 0) ⟨h1, h2⟩ ?_
  intro b a ha hb
  dsimp only
  split
  · simp only [List.mem_flatMap, List.mem_map, List.mem_range] at ha
    obtain ⟨y, hy, x, hx, rfl⟩ := ha
    exact ⟨hy, hx⟩
  · exact hb

theorem bestStep_bounds (H W : Nat) (tplName : String) (tgH tgW : Nat)
    (res : Rat → Nat → Nat → Rat) (best : Option Detection) (s : Rat)
    (hbest : ∀ d, best = some d → insideTarget H W d.box) :
    ∀ d, bestStep H W tplName tgH tgW res best s = some d → insideTarget H W d.box := by
  intro d hd
  simp only [bestStep] at hd
  split_ifs at hd with h1
  · exact hbest d hd
  · have hthH : (max 10 (pyInt ((tgH : Rat) * s))).toNat ≤ H := by
      rw [Int.toNat_le]; omega
    have htwW : (max 10 (pyInt ((tgW : Rat) * s))).toNat ≤ W := by
      rw [Int.toNat_le]; omega
    have hloc := argmaxLoc_bounds (H - (max 10 (pyInt ((tgH : Rat) * s))).toNat + 1)
      (W - (max 10 (pyInt ((tgW : Rat) * s))).toNat + 1) (res s) (by omega) (by omega)
    cases hb : best with
    | none =>
        rw [hb] at hd
        obtain rfl := Option.some_injective _ hd
        refine ⟨?_, ?_, ?_, ?_⟩ <;> · dsimp only; omega
    | some b =>
        rw [hb] at hd
        dsimp only at hd
        split at hd
        · obtain rfl := Option.some_injective _ hd
          refine ⟨?_, ?_, ?_, ?_⟩ <;> · dsimp only; omega
        · exact hbest d (hb.trans hd)

theorem find_best_of_templates_bounds (H W : Nat) (templates : List (String × Nat × Nat))
    (scales : List Rat) (resM : String → Rat → Nat → Nat → Rat) :
    ∀ d, find_best_of_templates H W templates scales resM = some d →
      insideTarget H W d.box := by
  unfold find_best_of_templates
  refine foldl_invariant
    (fun best : Option Detection => ∀ d : Detection, best = some d → insideTarget H W d.box)
    _ templates none (by simp) ?_
  intro best t _ hbest
  refine foldl_invariant
    (fun b : Option Detection => ∀ d : Detection, b = some d → insideTarget H W d.box)
    _ scales best hbest ?_
  intro b s _ hb
  exact bestStep_bounds H W t.1 t.2.1 t.2.2 (resM t.1) b s hb

/-- C8: every detection returned by the thresholded search, the multi-template
search or the diagnostic best-of search has its box inside the target bounds:
`0 ≤ x1`, `0 ≤ y1`, `x2 ≤ W`, `y2 ≤ H`. -/
theorem C8_boxes_inside_target (H W tgH tgW : Nat) (tplName : String) (threshold : Rat)
    (scales : List Rat) (nmsIou : Rat) (maxN : Nat) (res : Rat → Nat → Nat → Rat)
    (templates : List (String × Nat × Nat)) (resM : String → Rat → Nat → Nat → Rat) :
    (∀ d ∈ match_single_template H W tgH tgW tplName threshold scales maxN res,
        insideTarget H W d.box) ∧
    (∀ d ∈ match_multiple H W templates threshold scales nmsIou maxN resM,
        insideTarget H W d.box) ∧
    (∀ d, find_best_of_templates H W templates scales resM = some d →
        insideTarget H W d.box) :=
  ⟨match_single_template_bounds H W tgH tgW tplName threshold scales maxN res,
   match_multiple_bounds H W templates threshold scales nmsIou maxN resM,
   find_best_of_templates_bounds H W templates scales resM⟩

/-- C8 witness: on a 10×10 target with a 10×10 template at scale 1.0 and a
constant full-score surface, each entry point returns the detection with box
`(0, 0, 10, 10)`, and the theorem places that box inside the target. -/
theorem C8_boxes_inside_target_witness :
    ((⟨"t", 1, ⟨0, 0, 10, 10⟩, 1⟩ : Detection) ∈
        match_single_template 10 10 10 10 "t" (1/2) [1] 50 (fun _ _ _ => 1)) ∧
    ((⟨"t", 1, ⟨0, 0, 10, 10⟩, 1⟩ : Detection) ∈
        match_multiple 10 10 [("t", 10, 10)] (1/2) [1] (4/10) 50 (fun _ _ _ _ => 1)) ∧
    find_best_of_templates 10 10 [("t", 10, 10)] [1] (fun _ _ _ _ => 1) =
      some ⟨"t", 1, ⟨0, 0, 10, 10⟩, 1⟩ ∧
    insideTarget 10 10 (⟨0, 0, 10, 10⟩ : Box) := by
  have h1 : (⟨"t", 1, ⟨0, 0, 10, 10⟩, 1⟩ : Detection) ∈
      match_single_template 10 10 10 10 "t" (1/2) [1] 50 (fun _ _ _ => 1) := by
    norm_num [match_single_template, matchStep, collect, surfacePoints, pyInt]
  have h2 : (⟨"t", 1, ⟨0, 0, 10, 10⟩, 1⟩ : Detection) ∈
      match_multiple 10 10 [("t", 10, 10)] (1/2) [1] (4/10) 50 (fun _ _ _ _ => 1) := by
    norm_num [match_multiple, allCandidates, match_single_template, matchStep, collect,
      surfacePoints, pyInt, nms, sortScoreDesc, List.mergeSort, nmsLoop]
  have h3 : find_best_of_templates 10 10 [("t", 10, 10)] [1] (fun _ _ _ _ => 1) =
      some ⟨"t", 1, ⟨0, 0, 10, 10⟩, 1⟩ := by
    norm_num [find_best_of_templates, bestStep, argmaxLoc, pyInt]
  exact ⟨h1, h2, h3,
    (C8_boxes_inside_target 10 10 10 10 "t" (1/2) [1] (4/10) 50 (fun _ _ _ => 1)
      [("t", 10, 10)] (fun _ _ _ _ => 1)).2.2 _ h3⟩

/-! ### The per-template candidate cap -/

theorem collect_length (mk : Nat × Nat → Detection) (maxN : Nat) (pts : List (Nat × Nat))
    (dets : List Detection) :
    (collect mk maxN pts dets).length =
      if pts.length = 0 then dets.length
      else max (min (dets.length + pts.length) maxN) (dets.length + 1) := by
  induction pts generalizing dets with
  | nil => simp [collect]
  | cons p ps ih =>
      simp only [collect]
      split
      · rename_i hc
        simp only [List.length_append, List.length_singleton] at hc ⊢
        simp only [List.length_cons]
        rw [if_neg (Nat.succ_ne_zero ps.length)]
        omega
      · rename_i hc
        rw [ih]
        simp only [List.length_append, List.length_singleton] at hc ⊢
        simp only [List.length_cons]
        rw [if_neg (Nat.succ_ne_zero ps.length)]
        by_cases hps : ps.length = 0
        · rw [if_pos hps]
          omega
        · rw [if_neg hps]
          omega

theorem matchStep_length_le (H W tgH tgW : Nat) (tplName : String) (threshold : Rat)
    (maxN : Nat) (res : Rat → Nat → Nat → Rat) (dets : List Detection) (s : Rat) :
    matchStep H W tgH tgW tplName threshold maxN res dets s = dets ∨
    (matchStep H W tgH tgW tplName threshold maxN res dets s).length ≤
      max maxN (dets.length + 1) := by
  simp only [matchStep]
  split_ifs with h1
  · left; rfl
  · right
    rw [collect_length]
    split <;> omega

theorem matchStep_capped (H W tgH tgW : Nat) (tplName : String) (threshold : Rat)
    (maxN : Nat) (res : Rat → Nat → Nat → Rat) (dets : List Detection) (s : Rat)
    (h : maxN ≤ dets.length) :
    (matchStep H W tgH tgW tplName threshold maxN res dets s).length ≤ dets.length + 1 := by
  simp only [matchStep]
  split_ifs with h1
  · omega
  · rw [collect_length]
    split <;> omega

theorem match_fold_length_le (H W tgH tgW : Nat) (tplName : String) (threshold : Rat)
    (maxN : Nat) (res : Rat → Nat → Nat → Rat) :
    ∀ (scales : List Rat) (dets : List Detection),
      (scales.foldl (matchStep H W tgH tgW tplName threshold maxN res) dets).length ≤
        max (max 1 maxN) dets.length + scales.length := by
  intro scales
  induction scales with
  | nil => intro dets; simp
  | cons s ss ih =>
      intro dets
      rw [List.foldl_cons]
      have h2 := ih (matchStep H W tgH tgW tplName threshold maxN res dets s)
      rcases matchStep_length_le H W tgH tgW tplName threshold maxN res dets s with he | hle
      · rw [he] at h2 ⊢
        simp only [List.length_cons]
        omega
      · simp only [List.length_cons]
        omega

theorem match_single_template_length_le (H W tgH tgW : Nat) (tplName : String)
    (threshold : Rat) (scales : List Rat) (maxN : Nat) (res : Rat → Nat → Nat → Rat) :
    (match_single_template H W tgH tgW tplName threshold scales maxN res).length ≤
      max 1 maxN + (scales.length - 1) := by
  unfold match_single_template
  cases scales with
  | nil => simp
  | cons s ss =>
      rw [List.foldl_cons]
      have h2 := match_fold_length_le H W tgH tgW tplName threshold maxN res ss
        (matchStep H W tgH tgW tplName threshold maxN res [] s)
      rcases matchStep_length_le H W tgH tgW tplName threshold maxN res [] s with he | hle
      · rw [he] at h2 ⊢
        simp only [List.length_nil] at h2
        simp only [List.length_cons]
        omega
      · simp only [List.length_nil] at hle
        simp only [List.length_cons]
        omega

/-- C2 counterexample: with cap `max_per_template = 1` and the two valid scales
`[1.0, 0.9]` over an all-hit surface, the search returns two detections — the
second collected at the later scale after the cap was already reached — so the
output exceeds the cap. -/
theorem C2_cap_counterexample :
    ¬ ((match_single_template 10 10 10 10 "t" (3/4) [1, 9/10] 1
          (fun _ _ _ => 1)).length ≤ 1) ∧
    (match_single_template 10 10 10 10 "t" (3/4) [1, 9/10] 1
        (fun _ _ _ => 1)).map (fun d => d.scale) = [1, 9/10] := by
  norm_num [match_single_template, matchStep, collect, surfacePoints, pyInt]

/-- C2 amended: the thresholded search returns at most
`max 1 max_candidates + (|scales| - 1)` detections — at most `max_candidates`
up to and within the scale where the cap is reached, plus at most one more
candidate per later scale, because the `break` leaves the scale loop running
and the cap check only fires after an append. -/
theorem C2_cap_amended (H W tgH tgW : Nat) (tplName : String) (threshold : Rat)
    (scales : List Rat) (maxN : Nat) (res : Rat → Nat → Nat → Rat)
    (dets : List Detection) (s : Rat) :
    (match_single_template H W tgH tgW tplName threshold scales maxN res).length ≤
      max 1 maxN + (scales.length - 1) ∧
    (maxN ≤ dets.length →
      (matchStep H W tgH tgW tplName threshold maxN res dets s).length ≤ dets.length + 1) :=
  ⟨match_single_template_length_le H W tgH tgW tplName threshold scales maxN res,
   matchStep_capped H W tgH tgW tplName threshold maxN res dets s⟩

/-- C2 witness: the amended bound instantiated at the counterexample input —
cap 1, two scales, so at most `max 1 1 + 1 = 2` detections, and one scale step
from a full accumulator adds at most one. -/
theorem C2_cap_amended_witness :
    1 ≤ ([⟨"t", 1, ⟨0, 0, 10, 10⟩, (1 : Rat)⟩] : List Detection).length ∧
    (match_single_template 10 10 10 10 "t" (3/4) [1, 9/10] 1
        (fun _ _ _ => 1)).length ≤ 2 ∧
    (matchStep 10 10 10 10 "t" (3/4) 1 (fun _ _ _ => 1)
        [⟨"t", 1, ⟨0, 0, 10, 10⟩, 1⟩] (9/10)).length ≤
      ([⟨"t", 1, ⟨0, 0, 10, 10⟩, (1 : Rat)⟩] : List Detection).length + 1 := by
  have h := C2_cap_amended 10 10 10 10 "t" (3/4) [1, 9/10] 1 (fun _ _ _ => 1)
    [⟨"t", 1, ⟨0, 0, 10, 10⟩, 1⟩] (9/10)
  refine ⟨by norm_num, ?_, h.2 (by norm_num)⟩
  have h1 := h.1
  simp only [List.length_cons, List.length_nil] at h1
  omega

/-! ### Threshold monotonicity -/

theorem surfacePoints_mono (hS wS : Nat) (k1 k2 : Nat → Nat → Bool)
    (h : ∀ y x, k2 y x = true → k1 y x = true) :
    (surfacePoints hS wS k2).Sublist (surfacePoints hS wS k1) := by
  unfold surfacePoints
  induction List.range hS with
  | nil => simp
  | cons y ys ih =>
      simp only [List.flatMap_cons]
      exact List.Sublist.append
        ((List.monotone_filter_right (List.range wS) fun x hx => h y x hx).map _) ih

theorem matchStep_length_mono (H W tgH tgW : Nat) (tplName : String) (maxN : Nat)
    (res : Rat → Nat → Nat → Rat) (t1 t2 : Rat) (h12 : t1 ≤ t2)
    (dets1 dets2 : List Detection) (hlen : dets2.length ≤ dets1.length) (s : Rat) :
    (matchStep H W tgH tgW tplName t2 maxN res dets2 s).length ≤
      (matchStep H W tgH tgW tplName t1 maxN res dets1 s).length := by
  simp only [matchStep]
  split_ifs with h1
  · exact hlen
  · rw [collect_length, collect_length]
    have hsub : (surfacePoints (H - (max 10 (pyInt ((tgH : Rat) * s))).toNat + 1)
          (W - (max 10 (pyInt ((tgW : Rat) * s))).toNat + 1)
          fun y x => decide (t2 ≤ res s y x)).Sublist
        (surfacePoints (H - (max 10 (pyInt ((tgH : Rat) * s))).toNat + 1)
          (W - (max 10 (pyInt ((tgW : Rat) * s))).toNat + 1)
          fun y x => decide (t1 ≤ res s y x)) :=
      surfacePoints_mono _ _ _ _ fun y x hk =>
        decide_eq_true (le_trans h12 (of_decide_eq_true hk))
    have hk := hsub.length_le
    split_ifs <;> omega

theorem match_single_template_threshold_mono (H W tgH tgW : Nat) (tplName : String)
    (scales : List Rat) (maxN : Nat) (res : Rat → Nat → Nat → Rat) (t1 t2 : Rat)
    (h12 : t1 ≤ t2) :
    (match_single_template H W tgH tgW tplName t2 scales maxN res).length ≤
      (match_single_template H W tgH tgW tplName t1 scales maxN res).length := by
  unfold match_single_template
  suffices h : ∀ (sc : List Rat) (d2 d1 : List Detection), d2.length ≤ d1.length →
      (sc.foldl (matchStep H W tgH tgW tplName t2 maxN res) d2).length ≤
        (sc.foldl (matchStep H W tgH tgW tplName t1 maxN res) d1).length from
    h scales [] [] le_rfl
  intro sc
  induction sc with
  | nil => intro d2 d1 h; simpa using h
  | cons s ss ih =>
      intro d2 d1 h
      rw [List.foldl_cons, List.foldl_cons]
      exact ih _ _ (matchStep_length_mono H W tgH tgW tplName maxN res t1 t2 h12 d1 d2 h s)

/-- C3: for fixed target, template, scale set and cap, raising the threshold
never increases the number of detections returned by the thresholded search. -/
theorem C3_threshold_monotone (H W tgH tgW : Nat) (tplName : String) (scales : List Rat)
    (maxN : Nat) (res : Rat → Nat → Nat → Rat) (t1 t2 : Rat) (h12 : t1 ≤ t2) :
    (match_single_template H W tgH tgW tplName t2 scales maxN res).length ≤
      (match_single_template H W tgH tgW tplName t1 scales maxN res).length :=
  match_single_template_threshold_mono H W tgH tgW tplName scales maxN res t1 t2 h12

/-- C3 witness: with a constant surface of score 0.6, threshold 0.75 returns
no detection while threshold 0.5 returns one. -/
theorem C3_threshold_monotone_witness :
    ((1 : Rat)/2 ≤ 3/4) ∧
    (match_single_template 10 10 10 10 "t" (3/4) [1] 50 (fun _ _ _ => 3/5)).length ≤
      (match_single_template 10 10 10 10 "t" (1/2) [1] 50 (fun _ _ _ => 3/5)).length ∧
    (match_single_template 10 10 10 10 "t" (3/4) [1] 50 (fun _ _ _ => 3/5)).length = 0 ∧
    (match_single_template 10 10 10 10 "t" (1/2) [1] 50 (fun _ _ _ => 3/5)).length = 1 := by
  refine ⟨by norm_num,
    C3_threshold_monotone 10 10 10 10 "t" [1] 50 (fun _ _ _ => 3/5) (1/2) (3/4) (by norm_num),
    ?_, ?_⟩ <;>
    norm_num [match_single_template, matchStep, collect, surfacePoints, pyInt]

/-! ### Scaled template dimensions -/

theorem match_single_template_dims (H W tgH tgW : Nat) (tplName : String) (threshold : Rat)
    (scales : List Rat) (maxN : Nat) (res : Rat → Nat → Nat → Rat) :
    ∀ d ∈ match_single_template H W tgH tgW tplName threshold scales maxN res,
      d.scale ∈ scales ∧
      d.box.x2 - d.box.x1 = max 10 (pyInt ((tgW : Rat) * d.scale)) ∧
      d.box.y2 - d.box.y1 = max 10 (pyInt ((tgH : Rat) * d.scale)) := by
  unfold match_single_template
  refine foldl_invariant
    (fun dets : List Detection => ∀ d ∈ dets, d.scale ∈ scales ∧
      d.box.x2 - d.box.x1 = max 10 (pyInt ((tgW : Rat) * d.scale)) ∧
      d.box.y2 - d.box.y1 = max 10 (pyInt ((tgH : Rat) * d.scale)))
    _ scales [] (by simp) ?_
  intro dets s hs hdets d hd
  simp only [matchStep] at hd
  split_ifs at hd with h1
  · exact hdets d hd
  · refine collect_forall _ _ _ _ _ hdets ?_ d hd
    intro p _
    refine ⟨hs, ?_, ?_⟩ <;> · dsimp only; omega

theorem find_best_of_templates_dims (H W : Nat) (templates : List (String × Nat × Nat))
    (scales : List Rat) (resM : String → Rat → Nat → Nat → Rat) :
    ∀ d, find_best_of_templates H W templates scales resM = some d →
      d.scale ∈ scales ∧ ∃ t ∈ templates, d.name = t.1 ∧
        d.box.x2 - d.box.x1 = max 10 (pyInt ((t.2.2 : Rat) * d.scale)) ∧
        d.box.y2 - d.box.y1 = max 10 (pyInt ((t.2.1 : Rat) * d.scale)) := by
  unfold find_best_of_templates
  refine foldl_invariant
    (fun best : Option Detection => ∀ d : Detection, best = some d →
      d.scale ∈ scales ∧ ∃ t ∈ templates, d.name = t.1 ∧
        d.box.x2 - d.box.x1 = max 10 (pyInt ((t.2.2 : Rat) * d.scale)) ∧
        d.box.y2 - d.box.y1 = max 10 (pyInt ((t.2.1 : Rat) * d.scale)))
    _ templates none (by simp) ?_
  intro best t ht hbest
  refine foldl_invariant
    (fun b : Option Detection => ∀ d : Detection, b = some d →
      d.scale ∈ scales ∧ ∃ t ∈ templates, d.name = t.1 ∧
        d.box.x2 - d.box.x1 = max 10 (pyInt ((t.2.2 : Rat) * d.scale)) ∧
        d.box.y2 - d.box.y1 = max 10 (pyInt ((t.2.1 : Rat) * d.scale)))
    _ scales best hbest ?_
  intro b s hs hb d hd
  simp only [bestStep] at hd
  split_ifs at hd with h1
  · exact hb d hd
  · cases hbb : b with
    | none =>
        rw [hbb] at hd
        obtain rfl := Option.some_injective _ hd
        exact ⟨hs, t, ht, rfl, by dsimp only; omega, by dsimp only; omega⟩
    | some bb =>
        rw [hbb] at hd
        dsimp only at hd
        split at hd
        · obtain rfl := Option.some_injective _ hd
          exact ⟨hs, t, ht, rfl, by dsimp only; omega, by dsimp only; omega⟩
        · exact hb d (hbb.trans hd)

/-- C4 counterexample: an 11×11 template at scale 1.25 gives `11 * 1.25 = 13.75`;
the code truncates to 13 (box `(0, 0, 13, 13)`), while the claimed `round`
yields 14. -/
theorem C4_dims_counterexample :
    (match_single_template 13 13 11 11 "t" (1/2) [5/4] 50 (fun _ _ _ => 1)).map
      (fun d => d.box) = [⟨0, 0, 13, 13⟩] ∧
    (round ((11 : Rat) * (5/4)) : Int) = 14 ∧ ((13 : Int) ≠ 14) := by
  refine ⟨?_, by norm_num [round_eq], by norm_num⟩
  have ht : Int.tdiv 55 4 = 13 := by decide
  norm_num [match_single_template, matchStep, collect, surfacePoints, pyInt, ht]

/-- C4 amended: the candidate template dimensions used for matching are
`(tw, th) = (int(w * s), int(h * s))` — Python `int()` truncation toward zero,
not rounding — each floored at a minimum of 10 pixels; every returned
detection's box has exactly these dimensions at its recorded scale, in both the
thresholded search and the best-of search. -/
theorem C4_dims_amended (H W tgH tgW : Nat) (tplName : String) (threshold : Rat)
    (scales : List Rat) (maxN : Nat) (res : Rat → Nat → Nat → Rat)
    (templates : List (String × Nat × Nat)) (resM : String → Rat → Nat → Nat → Rat) :
    (∀ d ∈ match_single_template H W tgH tgW tplName threshold scales maxN res,
      d.scale ∈ scales ∧
      d.box.x2 - d.box.x1 = max 10 (pyInt ((tgW : Rat) * d.scale)) ∧
      d.box.y2 - d.box.y1 = max 10 (pyInt ((tgH : Rat) * d.scale))) ∧
    (∀ d, find_best_of_templates H W templates scales resM = some d →
      d.scale ∈ scales ∧ ∃ t ∈ templates, d.name = t.1 ∧
        d.box.x2 - d.box.x1 = max 10 (pyInt ((t.2.2 : Rat) * d.scale)) ∧
        d.box.y2 - d.box.y1 = max 10 (pyInt ((t.2.1 : Rat) * d.scale))) :=
  ⟨match_single_template_dims H W tgH tgW tplName threshold scales maxN res,
   find_best_of_templates_dims H W templates scales resM⟩

/-- C4 witness: the amended dimension law applied to the counterexample run —
the single returned detection has width and height `13 = max 10 (int 13.75)`
at scale `1.25`. -/
theorem C4_dims_amended_witness :
    ((⟨"t", 1, ⟨0, 0, 13, 13⟩, 5/4⟩ : Detection) ∈
      match_single_template 13 13 11 11 "t" (1/2) [5/4] 50 (fun _ _ _ => 1)) ∧
    ((5 : Rat)/4 ∈ ([5/4] : List Rat) ∧
      (13 : Int) - 0 = max 10 (pyInt ((11 : Rat) * (5/4))) ∧
      (13 : Int) - 0 = max 10 (pyInt ((11 : Rat) * (5/4)))) := by
  have ht : Int.tdiv 55 4 = 13 := by decide
  have hmem : (⟨"t", 1, ⟨0, 0, 13, 13⟩, 5/4⟩ : Detection) ∈
      match_single_template 13 13 11 11 "t" (1/2) [5/4] 50 (fun _ _ _ => 1) := by
    norm_num [match_single_template, matchStep, collect, surfacePoints, pyInt, ht]
  exact ⟨hmem,
    (C4_dims_amended 13 13 11 11 "t" (1/2) [5/4] 50 (fun _ _ _ => 1) [] (fun _ _ _ _ => 1)).1
      _ hmem⟩

/-! ### Template order and the NMS-selected set -/

theorem sorted_perm_distinct_eq : ∀ (l1 l2 : List Detection),
    l1.Perm l2 →
    l1.Pairwise (fun a b => b.score ≤ a.score) →
    l2.Pairwise (fun a b => b.score ≤ a.score) →
    l1.Pairwise (fun a b => a.score ≠ b.score) →
    l1 = l2
  | [], l2, hp, _, _, _ => hp.nil_eq
  | a :: t1, [], hp, _, _, _ => (List.cons_ne_nil a t1 hp.eq_nil).elim
  | a :: t1, b :: t2, hp, hs1, hs2, hd1 => by
    have hab : a = b := by
      by_contra hne
      have hat2 : a ∈ t2 := by
        rcases List.mem_cons.mp (hp.subset (List.mem_cons_self a t1)) with h | h
        · exact absurd h hne
        · exact h
      have hbt1 : b ∈ t1 := by
        rcases List.mem_cons.mp (hp.symm.subset (List.mem_cons_self b t2)) with h | h
        · exact absurd h.symm hne
        · exact h
      have h1 : b.score ≤ a.score := (List.pairwise_cons.mp hs1).1 b hbt1
      have h2 : a.score ≤ b.score := (List.pairwise_cons.mp hs2).1 a hat2
      exact (List.pairwise_cons.mp hd1).1 b hbt1 (le_antisymm h2 h1)
    subst hab
    rw [sorted_perm_distinct_eq t1 t2 hp.cons_inv (List.pairwise_cons.mp hs1).2
      (List.pairwise_cons.mp hs2).2 (List.pairwise_cons.mp hd1).2]

theorem nms_perm_distinct_eq (D1 D2 : List Detection) (t : Rat) (hp : D1.Perm D2)
    (hd : D1.Pairwise fun a b => a.score ≠ b.score) :
    nms D1 t = nms D2 t := by
  have hsort : sortScoreDesc D1 = sortScoreDesc D2 :=
    sorted_perm_distinct_eq _ _
      ((sortScoreDesc_perm D1).trans (hp.trans (sortScoreDesc_perm D2).symm))
      (sortScoreDesc_pairwise D1) (sortScoreDesc_pairwise D2)
      (((sortScoreDesc_perm D1).pairwise_iff fun h => Ne.symm h).mpr hd)
  unfold nms
  by_cases he : D1.isEmpty
  · rw [List.isEmpty_iff] at he
    subst he
    rw [← hp.nil_eq]
  · have he2 : ¬ D2.isEmpty := by
      intro h2
      rw [List.isEmpty_iff] at h2
      subst h2
      rw [List.isEmpty_iff] at he
      exact he hp.eq_nil
    rw [if_neg he, if_neg he2, hsort]

set_option maxHeartbeats 1600000 in
/-- C5 counterexample: two templates producing equal-score, fully-overlapping
detections — swapping the template order changes which detection survives NMS
(name "a" versus name "b"), so the selected content is order-dependent, not
only its order. -/
theorem C5_template_order_counterexample :
    (match_multiple 10 10 [("a", 10, 10), ("b", 10, 10)] (1/2) [1] (4/10) 50
        (fun _ _ _ _ => 9/10)).map (fun d => d.name) = ["a"] ∧
    (match_multiple 10 10 [("b", 10, 10), ("a", 10, 10)] (1/2) [1] (4/10) 50
        (fun _ _ _ _ => 9/10)).map (fun d => d.name) = ["b"] ∧
    ([("a", 10, 10), ("b", 10, 10)] : List (String × Nat × Nat)).Perm
      [("b", 10, 10), ("a", 10, 10)] := by
  have hA : allCandidates 10 10 [("a", 10, 10), ("b", 10, 10)] (1/2) [1] 50
      (fun _ _ _ _ => 9/10) =
      [⟨"a", 9/10, ⟨0, 0, 10, 10⟩, 1⟩, ⟨"b", 9/10, ⟨0, 0, 10, 10⟩, 1⟩] := by
    norm_num [allCandidates, match_single_template, matchStep, collect, surfacePoints, pyInt]
  have hB : allCandidates 10 10 [("b", 10, 10), ("a", 10, 10)] (1/2) [1] 50
      (fun _ _ _ _ => 9/10) =
      [⟨"b", 9/10, ⟨0, 0, 10, 10⟩, 1⟩, ⟨"a", 9/10, ⟨0, 0, 10, 10⟩, 1⟩] := by
    norm_num [allCandidates, match_single_template, matchStep, collect, surfacePoints, pyInt]
  have hnA : nms [⟨"a", 9/10, ⟨0, 0, 10, 10⟩, 1⟩, ⟨"b", 9/10, ⟨0, 0, 10, 10⟩, 1⟩] (4/10) =
      [⟨"a", 9/10, ⟨0, 0, 10, 10⟩, 1⟩] := by
    norm_num [nms, sortScoreDesc, List.mergeSort, List.splitInTwo, List.merge, nmsLoop,
      iou, area]
  have hnB : nms [⟨"b", 9/10, ⟨0, 0, 10, 10⟩, 1⟩, ⟨"a", 9/10, ⟨0, 0, 10, 10⟩, 1⟩] (4/10) =
      [⟨"b", 9/10, ⟨0, 0, 10, 10⟩, 1⟩] := by
    norm_num [nms, sortScoreDesc, List.mergeSort, List.splitInTwo, List.merge, nmsLoop,
      iou, area]
  refine ⟨?_, ?_, List.Perm.swap _ _ _⟩
  · show (nms (allCandidates 10 10 [("a", 10, 10), ("b", 10, 10)] (1/2) [1] 50
        (fun _ _ _ _ => 9/10)) (4/10)).map (fun d => d.name) = ["a"]
    rw [hA, hnA]
    rfl
  · show (nms (allCandidates 10 10 [("b", 10, 10), ("a", 10, 10)] (1/2) [1] 50
        (fun _ _ _ _ => 9/10)) (4/10)).map (fun d => d.name) = ["b"]
    rw [hB, hnB]
    rfl

/-- C5 amended: when the raw candidates carry pairwise distinct scores (no
exact ties), permuting the template order leaves the multi-template result
identical, content and order alike; with exact score ties the input order can
change which of the tied overlapping detections is selected, not merely their
order. -/
theorem C5_template_order_amended (H W : Nat) (l1 l2 : List (String × Nat × Nat))
    (threshold : Rat) (scales : List Rat) (nmsIou : Rat) (maxN : Nat)
    (res : String → Rat → Nat → Nat → Rat) (hperm : l1.Perm l2)
    (hdist : (allCandidates H W l1 threshold scales maxN res).Pairwise
      fun a b => a.score ≠ b.score) :
    match_multiple H W l1 threshold scales nmsIou maxN res =
      match_multiple H W l2 threshold scales nmsIou maxN res := by
  unfold match_multiple
  exact nms_perm_distinct_eq _ _ nmsIou (hperm.flatMap_right _) hdist

set_option maxHeartbeats 1600000 in
/-- C5 witness: the amended statement applied to two templates with distinct
scores 0.9 and 0.8 — swapping the template order leaves the output unchanged. -/
theorem C5_template_order_amended_witness :
    ([("a", 10, 10), ("b", 10, 10)] : List (String × Nat × Nat)).Perm
      [("b", 10, 10), ("a", 10, 10)] ∧
    ((allCandidates 10 10 [("a", 10, 10), ("b", 10, 10)] (1/2) [1] 50
        (fun n _ _ _ => if n = "a" then 9/10 else 8/10)).Pairwise
      fun a b => a.score ≠ b.score) ∧
    match_multiple 10 10 [("a", 10, 10), ("b", 10, 10)] (1/2) [1] (4/10) 50
        (fun n _ _ _ => if n = "a" then 9/10 else 8/10) =
      match_multiple 10 10 [("b", 10, 10), ("a", 10, 10)] (1/2) [1] (4/10) 50
        (fun n _ _ _ => if n = "a" then 9/10 else 8/10) := by
  have hperm : ([("a", 10, 10), ("b", 10, 10)] : List (String × Nat × Nat)).Perm
      [("b", 10, 10), ("a", 10, 10)] := List.Perm.swap _ _ _
  have hne : ¬ (("b" : String) = "a") := by decide
  have hdist : (allCandidates 10 10 [("a", 10, 10), ("b", 10, 10)] (1/2) [1] 50
      (fun n _ _ _ => if n = "a" then 9/10 else 8/10)).Pairwise
      (fun a b => a.score ≠ b.score) := by
    norm_num [allCandidates, match_single_template, matchStep, collect, surfacePoints,
      pyInt, List.pairwise_cons, if_neg hne]
  exact ⟨hperm, hdist,
    C5_template_order_amended 10 10 _ _ (1/2) [1] (4/10) 50 _ hperm hdist⟩
